import Mathlib

/-!
Verification development for the CS Float scanning bot (`src/main.py`).

The Python source is shallowly embedded: pure fragments become Lean
functions, the bot's mutable attributes (`seen_listings`,
`tracking_configs`, `channel_id`) become an explicit `BotState` threaded
through the command handlers and the polling loop, and the HTTP layer is
replaced by an oracle argument holding the data the network would have
produced.  Python `float` values (prices in dollars, float values,
percentages) are modelled as exact rationals (`Rat`); Python's `set` of
seen listing ids is modelled as a duplicate-free `List String` with
membership semantics.
-/

namespace CSFloat

/-! ## Sort options (`SortOption` enum, `main.py` lines 19-28) -/

/-- The values of the `SortOption` enum, in declaration order. -/
def sortOptions : List String :=
  ["best_deal", "highest_discount", "lowest_price", "highest_price",
   "most_recent", "lowest_float", "highest_float", "created_at"]

/-! ## Parameter values and Python-style numeric coercion
(`track_items`, `main.py` lines 274-282) -/

/-- A scalar stored in a tracking configuration's parameter dict:
Python `int`, `float` (modelled as `Rat`) or `str`. -/
inductive PVal where
  | i : Int → PVal
  | f : Rat → PVal
  | s : String → PVal
deriving DecidableEq, Repr

/-- Digits-to-number accumulator (`int("…")` on a digit run). -/
def natOfDigits (cs : List Char) : Nat :=
  cs.foldl (fun a c => a * 10 + (c.toNat - 48)) 0

/-- Model of Python `int(value)` on plain decimal literals with an
optional sign; anything else raises `ValueError`, modelled as `none`.
(Python also strips whitespace and underscores; the bot only ever feeds
it whitespace-free tokens.) -/
def pyInt (v : String) : Option Int :=
  match v.toList with
  | '-' :: rest =>
      if rest ≠ [] ∧ rest.all Char.isDigit then some (-(natOfDigits rest : Int)) else none
  | '+' :: rest =>
      if rest ≠ [] ∧ rest.all Char.isDigit then some ((natOfDigits rest : Int)) else none
  | w =>
      if w ≠ [] ∧ w.all Char.isDigit then some ((natOfDigits w : Int)) else none

/-- Model of Python `float(value)` on decimal literals containing a
dot, with an optional sign, as the exact rational
`ipart.fpart = (ipart * 10 ^ len + fpart) / 10 ^ len`; other shapes
raise `ValueError`, modelled as `none`. -/
def pyFloat (v : String) : Option Rat :=
  let core : List Char → Option Rat := fun w =>
    let ip := w.takeWhile (· ≠ '.')
    match w.dropWhile (· ≠ '.') with
    | '.' :: fp =>
        if ip.all Char.isDigit ∧ fp.all Char.isDigit ∧ (ip ≠ [] ∨ fp ≠ []) then
          some (mkRat (natOfDigits ip * 10 ^ fp.length + natOfDigits fp)
            (10 ^ fp.length))
        else none
    | _ => none
  match v.toList with
  | '-' :: rest => (core rest).map (fun q => -q)
  | '+' :: rest => core rest
  | w => core w

/-- Numeric coercion of a `key=value` token's value
(`main.py` lines 275-282): a value containing `'.'` goes through
`float`, otherwise through `int`; on `ValueError` the raw string is
kept. -/
def coerceValue (v : String) : PVal :=
  if '.' ∈ v.toList then
    match pyFloat v with
    | some q => .f q
    | none => .s v
  else
    match pyInt v with
    | some n => .i n
    | none => .s v

/-! ## Listing records (shape consumed by `create_listing_embed`) -/

/-- Seller block of a listing.  `none` models an absent JSON key;
`some ""` a present-but-empty string value. -/
structure Seller where
  username : Option String
  obfuscated_id : Option String
deriving DecidableEq, Repr

structure Sticker where
  name : String
deriving DecidableEq, Repr

/-- Item block of a listing. -/
structure Item where
  market_hash_name : String
  float_value : Rat
  paint_seed : Option Int
  wear_name : Option String
  is_stattrak : Bool
  is_souvenir : Bool
  rarity : Option Int
  stickers : List Sticker
  icon_url : String
deriving DecidableEq, Repr

/-- Reference-price block; `.get(key, 0)` defaults mean absent keys
read as `0`, so the fields are plain cent amounts. -/
structure Reference where
  predicted_price : Nat
  base_price : Nat
deriving DecidableEq, Repr

/-- A listing record as consumed by the bot.  `reference = none` covers
both an absent and an empty (falsy) `reference` dict; prices are cents. -/
structure Listing where
  id : String
  item : Item
  seller : Seller
  price : Nat
  reference : Option Reference
  watchers : Nat
  created_at : String
  description : String
deriving DecidableEq, Repr

/-! ## Fixed-point formatting (Python `f"{x:.nf}"` on exact values) -/

/-- Left-pad a digit string with zeros to width `n`. -/
def padZeros (n : Nat) (s : String) : String :=
  String.mk (List.replicate (n - s.length) '0') ++ s

/-- Model of Python `f"{q:.precf}"` for a `float` modelled as the exact
rational `q`: the magnitude `|q| * 10 ^ prec` is rounded to the nearest
integer with ties to even (the rounding CPython's fixed-point
formatting applies), working on the numerator and denominator directly
so the function evaluates by plain reduction. -/
def fmtFixed (prec : Nat) (q : Rat) : String :=
  let a : Nat := q.num.natAbs * 10 ^ prec
  let quot : Nat := a / q.den
  let rem : Nat := a % q.den
  let np : Nat :=
    if 2 * rem < q.den then quot
    else if q.den < 2 * rem then quot + 1
    else if quot % 2 = 0 then quot else quot + 1
  let ip : Nat := np / 10 ^ prec
  let fp : Nat := np % 10 ^ prec
  (if q.num < 0 then "-" else "") ++ toString ip ++
    (if prec = 0 then "" else "." ++ padZeros prec (toString fp))

/-! ## Notification builder (`create_listing_embed`, `main.py` 87-196) -/

/-- Seller display name (`main.py` lines 120-124):
`seller.get('username', 'Anonymous')`, overwritten with the truncated
obfuscated id only when that value is falsy (empty) and a truthy
(non-empty) `obfuscated_id` exists. -/
def sellerName (seller : Seller) : String :=
  let s0 := seller.username.getD "Anonymous"
  if s0 = "" ∧ (seller.obfuscated_id.getD "") ≠ "" then
    "User " ++ (seller.obfuscated_id.getD "").take 8 ++ "..."
  else s0

/-- StatTrak/Souvenir field, else rarity grade (`main.py` 109-118). -/
def specialOrRarity (item : Item) : String × String :=
  let special :=
    (if item.is_stattrak then ["StatTrak™"] else []) ++
    (if item.is_souvenir then ["Souvenir"] else [])
  if special ≠ [] then ("✨ Special", String.intercalate " | " special)
  else
    ("📊 Rarity",
     "Grade " ++ (match item.rarity with | some n => toString n | none => "Unknown"))

/-- Divergence percentage between display price and predicted price,
both in dollars: `(displayPrice - predictedPrice) / predictedPrice * 100`
(`main.py` line 138). -/
def divergencePct (priceUsd predictedUsd : Rat) : Rat :=
  (priceUsd - predictedUsd) / predictedUsd * 100

/-- Reference-price fields (`main.py` lines 126-160): predicted price
and divergence when `predicted_price > 0`, plus the legacy discount
field when `base_price > 0` and the price is below prediction.  The
whole block is guarded by the truthiness of the `reference` dict. -/
def refFields (priceCents : Nat) (reference : Option Reference) :
    List (String × String) :=
  match reference with
  | none => []
  | some r =>
      let priceUsd : Rat := (priceCents : Rat) / 100
      let predicted : Rat := (r.predicted_price : Rat) / 100
      let basePrice : Rat := (r.base_price : Rat) / 100
      (if predicted > 0 then
        let d := divergencePct priceUsd predicted
        let t :=
          if d > 0 then ("📈 Divergence", "+" ++ fmtFixed 1 d ++ "%")
          else if d < 0 then ("📉 Divergence", fmtFixed 1 d ++ "%")
          else ("⚖️ Divergence", "0.0%")
        [("📈 Predicted", "$" ++ fmtFixed 2 predicted), t]
      else []) ++
      (if basePrice > 0 ∧ priceUsd < predicted then
        [("💸 Discount",
          fmtFixed 1 ((predicted - priceUsd) / predicted * 100) ++ "%")]
      else [])

/-- Sticker field (`main.py` lines 162-169): first three names,
newline-joined, with a "... and N more" suffix past three. -/
def stickerFields (stickers : List Sticker) : List (String × String) :=
  if stickers.isEmpty then []
  else
    let text := String.intercalate "\n" ((stickers.take 3).map (·.name))
    let text :=
      if stickers.length > 3 then
        text ++ "\n... and " ++ toString (stickers.length - 3) ++ " more"
      else text
    [("🏷️ Stickers", text)]

/-- Watchers field, only when the count is positive (`main.py` 171-174). -/
def watcherFields (watchers : Nat) : List (String × String) :=
  if watchers > 0 then [("👀 Watchers", toString watchers)] else []

/-- Thumbnail URL (`main.py` 176-186): pass a full URL through,
otherwise prefix with the Steam CDN base (the `-9a81` branch and the
fallback branch build the same URL). -/
def thumbnailUrl (icon_url : String) : Option String :=
  if icon_url = "" then none
  else if icon_url.startsWith "http" then some icon_url
  else some ("https://steamcommunity-a.akamaihd.net/economy/image/" ++ icon_url)

/-- Description note, truncated to 100 characters with an ellipsis when
truncation occurred (`main.py` 188-191). -/
def descriptionFields (description : String) : List (String × String) :=
  if description = "" then []
  else
    [("📝 Note",
      description.take 100 ++ (if description.length > 100 then "..." else ""))]

/-- The structured notification payload: a Discord embed reduced to the
data the spec talks about (field order is the `add_field` call order). -/
structure Embed where
  title : String
  url : String
  timestamp : String
  fields : List (String × String)
  thumbnail : Option String
  footer : String
deriving DecidableEq, Repr

/-- `create_listing_embed` (`main.py` lines 87-196) as a pure function. -/
def createListingEmbed (listing : Listing) : Embed :=
  let item := listing.item
  { title := item.market_hash_name
    url := "https://csfloat.com/item/" ++ listing.id
    timestamp := listing.created_at.replace "Z" "+00:00"
    fields :=
      [("💰 Price", "$" ++ fmtFixed 2 ((listing.price : Rat) / 100)),
       ("🎯 Float", fmtFixed 6 item.float_value),
       ("🎨 Paint Seed",
        match item.paint_seed with | some n => toString n | none => "N/A"),
       ("👕 Condition", item.wear_name.getD "Unknown"),
       specialOrRarity item,
       ("👤 Seller", sellerName listing.seller)]
      ++ refFields listing.price listing.reference
      ++ stickerFields item.stickers
      ++ watcherFields listing.watchers
      ++ descriptionFields listing.description
    thumbnail := thumbnailUrl item.icon_url
    footer := "CS Float • ID: " ++ listing.id }

/-! ## Fetch client (`fetch_listings`, `main.py` lines 65-85) -/

/-- Decoded JSON body of a listing-endpoint response; the `data` key
may be absent. -/
structure ResponseBody where
  data : Option (List Listing)
deriving Repr

/-- Outcome of one HTTP request: a response with a status and a body
(`none` body = the JSON decode raised), or an exception during the
request itself. -/
inductive FetchOutcome where
  | response (status : Nat) (body : Option ResponseBody)
  | transportError
deriving Repr

/-- `fetch_listings`: a 200 response yields `body.get('data', [])`;
every non-200 status, decode failure (the `await response.json()` call
raising inside the `try`) or transport exception is logged and degrades
to the empty list — the function never raises. -/
def fetchListings : FetchOutcome → List Listing
  | .response status body =>
      if status = 200 then
        match body with
        | some b => b.data.getD []
        | none => []
      else []
  | .transportError => []

/-! ## Seen-set diffing (`check_listings`, `main.py` lines 215-225) -/

/-- Python `set.add`: membership-preserving insert on the list model. -/
def setAdd (seen : List String) (x : String) : List String :=
  if x ∈ seen then seen else x :: seen

/-- The diff loop of `check_listings` (lines 216-220): walk the fetched
listings, collecting those whose id is not yet seen and adding each new
id to the seen set immediately upon detection. -/
def diffNew (seen : List String) : List Listing → List String × List Listing
  | [] => (seen, [])
  | l :: ls =>
      if l.id ∈ seen then diffNew seen ls
      else
        let r := diffNew (l.id :: seen) ls
        (r.1, l :: r.2)

/-- One poll of one configuration (lines 215-225): diff against the
seen set, then notify only the first 5 new listings
(`new_listings[:5]`).  Returns the updated seen set and the listings a
notification is dispatched for. -/
def checkCycle (seen : List String) (ls : List Listing) :
    List String × List Listing :=
  let r := diffNew seen ls
  (r.1, r.2.take 5)

/-- Consecutive polling cycles for one configuration: thread the seen
set through `checkCycle`, collecting each cycle's notified listings. -/
def runCycles (seen : List String) :
    List (List Listing) → List String × List (List Listing)
  | [] => (seen, [])
  | f :: fs =>
      let c := checkCycle seen f
      let r := runCycles c.1 fs
      (r.1, c.2 :: r.2)

/-- Number of listings with the given id in one cycle's notified list. -/
def cntId (id : String) (ns : List Listing) : Nat :=
  (ns.filter (fun l => l.id == id)).length

/-- Number of notifications dispatched for a given listing id across a
run's cycles. -/
def countNotifs (id : String) (cycles : List (List Listing)) : Nat :=
  (cycles.map (cntId id)).sum

/-- One scheduler tick over several configurations in store order
(lines 209-228): each configuration's fetch result is diffed against
the seen set accumulated so far; notifications carry the
configuration's name. -/
def runConfigs (seen : List String) :
    List (String × List Listing) → List String × List (String × Listing)
  | [] => (seen, [])
  | (name, ls) :: rest =>
      let c := checkCycle seen ls
      let r := runConfigs c.1 rest
      (r.1, c.2.map (fun l => (name, l)) ++ r.2)

/-! ## Bot state and command handlers (`main.py` lines 36-378) -/

/-- One stored tracking configuration: the query-parameter dict (an
association list in dict insertion order) and the channel the `!track`
command came from (`main.py` lines 284-288). -/
structure TrackingConfig where
  params : List (String × PVal)
  channel : Int
deriving DecidableEq, Repr

/-- The bot's mutable attributes (`main.py` lines 39-43). -/
structure BotState where
  seen_listings : List String
  tracking_configs : List (String × TrackingConfig)
  channel_id : Int
deriving DecidableEq, Repr

/-- Python dict assignment `d[k] = v` on an association list: replace
the binding in place if the key exists, else append at the end. -/
def dictInsert {A : Type} (store : List (String × A)) (k : String) (v : A) :
    List (String × A) :=
  match store with
  | [] => [(k, v)]
  | (k', v') :: rest =>
      if k' = k then (k, v) :: rest else (k', v') :: dictInsert rest k v

/-- Accumulator for `wsTokens`: `cur` holds the reversed characters of
the token being read. -/
def wsTokensAux (cur : List Char) : List Char → List (List Char)
  | [] => if cur.isEmpty then [] else [cur.reverse]
  | c :: cs =>
      if c = ' ' then
        if cur.isEmpty then wsTokensAux [] cs else cur.reverse :: wsTokensAux [] cs
      else wsTokensAux (c :: cur) cs

/-- Python `str.split()` with no argument: maximal runs of non-space
characters (the command layer delivers single-line, space-separated
parameter strings). -/
def wsTokens (cs : List Char) : List (List Char) :=
  wsTokensAux [] cs

/-- The parameter-token loop of `track_items` (`main.py` lines
260-282): tokens without `'='` are skipped; `sort_by` values are
validated against the enum, an unknown value aborting the whole command
with the error message of line 272; other values are numerically
coerced and stored. -/
def parseTokens (acc : List (String × PVal)) :
    List (List Char) → Except String (List (String × PVal))
  | [] => .ok acc
  | t :: rest =>
      if '=' ∈ t then
        let key := String.mk (t.takeWhile (· ≠ '='))
        let value := String.mk ((t.dropWhile (· ≠ '=')).drop 1)
        if key = "sort_by" then
          if value ∈ sortOptions then
            parseTokens (dictInsert acc key (.s value)) rest
          else
            .error ("❌ Invalid sort option '" ++ value ++ "'. Valid options: " ++
              String.intercalate ", " sortOptions)
        else
          parseTokens (dictInsert acc key (coerceValue value)) rest
      else parseTokens acc rest

/-- The base parameter dict of `track_items` (`main.py` lines 252-257):
required indices plus the `limit` and `sort_by` defaults. -/
def baseParams (defIndex paintIndex : Int) : List (String × PVal) :=
  [("def_index", PVal.i defIndex), ("paint_index", PVal.i paintIndex),
   ("limit", PVal.i 20), ("sort_by", PVal.s "best_deal")]

/-- `track_items` (`main.py` lines 241-324) as a state transformer.
`initialFetch` is the oracle for the listings the post-store test fetch
(line 304) returns.  On a validation error the command returns early
with the error message and the state is untouched; on success the
configuration is stored (insert-or-overwrite), the default channel is
updated when the store now holds exactly one configuration
(`len(bot.tracking_configs) == 1`, line 291), and every initially
fetched listing id is marked seen (lines 306-308). -/
def trackItems (s : BotState) (ctxChannel : Int) (name : String)
    (defIndex paintIndex : Int) (params : String)
    (initialFetch : List Listing) :
    BotState × Except String (List (String × PVal)) :=
  match parseTokens (baseParams defIndex paintIndex) (wsTokens params.toList) with
  | .error msg => (s, .error msg)
  | .ok pd =>
      let configs := dictInsert s.tracking_configs name
        { params := pd, channel := ctxChannel }
      let chan := if configs.length = 1 then ctxChannel else s.channel_id
      let seen := initialFetch.foldl (fun acc l => setAdd acc l.id) s.seen_listings
      ({ seen_listings := seen, tracking_configs := configs, channel_id := chan },
       .ok pd)

/-- `untrack_items` (`main.py` lines 326-333): delete the named
configuration if present; the reply reports whether one existed. -/
def untrackItems (s : BotState) (name : String) : BotState × String :=
  if s.tracking_configs.any (fun p => p.1 == name) then
    ({ s with tracking_configs := s.tracking_configs.filter (fun p => p.1 != name) },
     "✅ Stopped tracking **" ++ name ++ "**")
  else
    (s, "❌ No tracking configuration found for **" ++ name ++ "**")

/-- `list_tracking` (`main.py` lines 335-348): the stored
configurations, each with its parameter dict, in store order. -/
def listTracking (s : BotState) : List (String × List (String × PVal)) :=
  s.tracking_configs.map (fun p => (p.1, p.2.params))

/-- `test_fetch` (`main.py` lines 350-378): validates the sort option
and builds an embed for the first fetched listing; it never mutates the
bot's state.  `fetch` is the oracle for the one-shot fetch result. -/
def testFetch (s : BotState) (defIndex : Int) (paintIndex : Option Int)
    (limit : Int) (sortBy : String) (fetch : List Listing) :
    BotState × Option Embed :=
  if sortBy ∈ sortOptions then (s, fetch.head?.map createListingEmbed)
  else (s, none)

/-- `check_listings` (`main.py` lines 198-231) as a state transformer:
a no-op when no configurations exist or the channel cannot be resolved;
otherwise every configuration is polled in store order against the
shared seen set.  `fetches` is the oracle for each configuration's
fetch result, in store order. -/
def checkListingsState (s : BotState) (fetches : List (List Listing))
    (channelFound : Bool) : BotState × List (String × Listing) :=
  if s.tracking_configs.isEmpty then (s, [])
  else if !channelFound then (s, [])
  else
    let r := runConfigs s.seen_listings
      ((s.tracking_configs.map (·.1)).zip fetches)
    ({ s with seen_listings := r.1 }, r.2)

/-- Every operation of the program that touches the bot state. -/
inductive BotOp where
  | check (fetches : List (List Listing)) (channelFound : Bool)
  | track (ctxChannel : Int) (name : String) (defIndex paintIndex : Int)
      (params : String) (initialFetch : List Listing)
  | untrack (name : String)
  | listTr
  | testF (defIndex : Int) (paintIndex : Option Int) (limit : Int)
      (sortBy : String) (fetch : List Listing)

/-- State transition of one operation. -/
def applyOp (s : BotState) : BotOp → BotState
  | .check fetches channelFound => (checkListingsState s fetches channelFound).1
  | .track ch name d p params fetch => (trackItems s ch name d p params fetch).1
  | .untrack name => (untrackItems s name).1
  | .listTr => s
  | .testF d p lim sortBy fetch => (testFetch s d p lim sortBy fetch).1

/-- A minimal listing for concrete test inputs. -/
def mkListing (id : String) : Listing :=
  { id := id
    item := { market_hash_name := "item", float_value := 0, paint_seed := none,
              wear_name := none, is_stattrak := false, is_souvenir := false,
              rarity := none, stickers := [], icon_url := "" }
    seller := { username := none, obfuscated_id := none }
    price := 0, reference := none, watchers := 0, created_at := "",
    description := "" }

/-- A batch of six distinct listings: one more than the per-cycle
notification cap. -/
def sixListings : List Listing :=
  ["a1", "a2", "a3", "a4", "a5", "a6"].map mkListing

/-- A batch of eight distinct listings. -/
def eightListings : List Listing :=
  ["b1", "b2", "b3", "b4", "b5", "b6", "b7", "b8"].map mkListing

/-- A bot state already holding one tracking configuration, stored from
channel 1. -/
def oneConfigState : BotState :=
  { seen_listings := []
    tracking_configs := [("A", { params := [], channel := 1 })]
    channel_id := 1 }

/-- The parameter dict `track("X", 7, 282, "max_float=0.15")` stores:
the defaults with `max_float` coerced to the float `0.15 = 3/20`. -/
def roundTripParams : List (String × PVal) :=
  [("def_index", PVal.i 7), ("paint_index", PVal.i 282),
   ("limit", PVal.i 20), ("sort_by", PVal.s "best_deal"),
   ("max_float", PVal.f (mkRat 3 20))]

/-! ## Helper lemmas about the seen-set diff -/

theorem setAdd_subset (seen : List String) (x : String) : seen ⊆ setAdd seen x := by
  unfold setAdd; split
  · exact List.Subset.refl _
  · exact List.subset_cons_self _ _

theorem mem_setAdd (seen : List String) (x : String) : x ∈ setAdd seen x := by
  unfold setAdd; split
  · assumption
  · exact List.mem_cons_self _ _

theorem diffNew_seen_subset (ls : List Listing) :
    ∀ seen, seen ⊆ (diffNew seen ls).1 := by
  induction ls with
  | nil => intro seen; simp [diffNew]
  | cons l ls ih =>
      intro seen
      by_cases h : l.id ∈ seen
      · simpa [diffNew, h] using ih seen
      · simp only [diffNew, h, if_neg, not_false_iff]
        exact List.Subset.trans (List.subset_cons_self _ _) (ih (l.id :: seen))

theorem diffNew_mem_fst (ls : List Listing) :
    ∀ seen, ∀ l ∈ ls, l.id ∈ (diffNew seen ls).1 := by
  induction ls with
  | nil => intro seen l hl; cases hl
  | cons x ls ih =>
      intro seen l hl
      rcases List.mem_cons.1 hl with h | h
      · subst h
        by_cases hx : l.id ∈ seen
        · simpa [diffNew, hx] using diffNew_seen_subset ls seen hx
        · simp only [diffNew, hx, if_neg, not_false_iff]
          exact diffNew_seen_subset ls (l.id :: seen) (List.mem_cons_self _ _)
      · by_cases hx : x.id ∈ seen
        · simpa [diffNew, hx] using ih seen l h
        · simpa [diffNew, hx] using ih (x.id :: seen) l h

theorem diffNew_snd_not_seen (ls : List Listing) :
    ∀ seen, ∀ l ∈ (diffNew seen ls).2, l.id ∉ seen := by
  induction ls with
  | nil => intro seen l hl; simp [diffNew] at hl
  | cons x ls ih =>
      intro seen l hl
      by_cases hx : x.id ∈ seen
      · exact ih seen l (by simpa [diffNew, hx] using hl)
      · simp only [diffNew, hx, if_neg, not_false_iff] at hl
        rcases List.mem_cons.1 hl with h | h
        · subst h; exact hx
        · intro hmem
          exact ih (x.id :: seen) l h (List.mem_cons_of_mem _ hmem)

theorem diffNew_snd_mem_fst (ls : List Listing) :
    ∀ seen, ∀ l ∈ (diffNew seen ls).2, l.id ∈ (diffNew seen ls).1 := by
  induction ls with
  | nil => intro seen l hl; simp [diffNew] at hl
  | cons x ls ih =>
      intro seen l hl
      by_cases hx : x.id ∈ seen
      · simp only [diffNew, hx, if_pos] at hl ⊢
        exact ih seen l hl
      · simp only [diffNew, hx, if_neg, not_false_iff] at hl ⊢
        rcases List.mem_cons.1 hl with h | h
        · subst h
          exact diffNew_seen_subset ls (l.id :: seen) (List.mem_cons_self _ _)
        · exact ih (x.id :: seen) l h

theorem diffNew_ids_nodup (ls : List Listing) :
    ∀ seen, ((diffNew seen ls).2.map (·.id)).Nodup := by
  induction ls with
  | nil => intro seen; simp [diffNew]
  | cons x ls ih =>
      intro seen
      by_cases hx : x.id ∈ seen
      · simpa [diffNew, hx] using ih seen
      · simp only [diffNew, hx, if_neg, not_false_iff, List.map_cons, List.nodup_cons]
        refine ⟨?_, ih (x.id :: seen)⟩
        intro hmem
        rcases List.mem_map.1 hmem with ⟨l, hl, hid⟩
        exact diffNew_snd_not_seen ls (x.id :: seen) l hl (hid ▸ List.mem_cons_self _ _)

theorem diffNew_fst_length (ls : List Listing) :
    ∀ seen, (diffNew seen ls).1.length = seen.length + (diffNew seen ls).2.length := by
  induction ls with
  | nil => intro seen; simp [diffNew]
  | cons x ls ih =>
      intro seen
      by_cases hx : x.id ∈ seen
      · simpa [diffNew, hx] using ih seen
      · simp only [diffNew, hx, if_neg, not_false_iff, List.length_cons]
        have := ih (x.id :: seen)
        simp only [List.length_cons] at this
        omega

/-! ## Helper lemmas about notification counting -/

theorem cntId_nil (id : String) : cntId id [] = 0 := rfl

theorem cntId_cons (id : String) (l : Listing) (ns : List Listing) :
    cntId id (l :: ns) = (if l.id = id then 1 else 0) + cntId id ns := by
  by_cases h : l.id = id <;> simp [cntId, List.filter_cons, h, Nat.add_comm]

theorem cntId_eq_zero_of_not_mem {id : String} {ns : List Listing}
    (h : id ∉ ns.map (·.id)) : cntId id ns = 0 := by
  induction ns with
  | nil => rfl
  | cons l ns ih =>
      simp only [List.map_cons, List.mem_cons, not_or] at h
      rw [cntId_cons, if_neg (fun he => h.1 he.symm), ih h.2]

theorem mem_map_of_cntId_pos {id : String} {ns : List Listing}
    (h : 0 < cntId id ns) : id ∈ ns.map (·.id) := by
  by_contra hm
  rw [cntId_eq_zero_of_not_mem hm] at h
  exact Nat.lt_irrefl 0 h

theorem cntId_eq_one_of_nodup {id : String} {ns : List Listing}
    (hn : (ns.map (·.id)).Nodup) (hm : id ∈ ns.map (·.id)) : cntId id ns = 1 := by
  induction ns with
  | nil => cases hm
  | cons l ns ih =>
      simp only [List.map_cons, List.nodup_cons] at hn
      rcases List.mem_cons.1 hm with h | h
      · rw [cntId_cons, if_pos h.symm,
          cntId_eq_zero_of_not_mem (h ▸ hn.1)]
      · have hne : l.id ≠ id := fun he => hn.1 (he ▸ h)
        rw [cntId_cons, if_neg hne, ih hn.2 h]

theorem cntId_le_one_of_nodup {id : String} {ns : List Listing}
    (hn : (ns.map (·.id)).Nodup) : cntId id ns ≤ 1 := by
  by_cases hm : id ∈ ns.map (·.id)
  · exact Nat.le_of_eq (cntId_eq_one_of_nodup hn hm)
  · rw [cntId_eq_zero_of_not_mem hm]; omega

/-! ## Helper lemmas about one cycle and runs of cycles -/

theorem checkCycle_notified_ids_nodup (seen : List String) (ls : List Listing) :
    ((checkCycle seen ls).2.map (·.id)).Nodup := by
  have h := diffNew_ids_nodup ls seen
  have hsub : List.Sublist ((checkCycle seen ls).2.map (·.id))
      ((diffNew seen ls).2.map (·.id)) :=
    List.Sublist.map _ (List.take_sublist _ _)
  exact h.sublist hsub

theorem checkCycle_notified_mem_ls {seen : List String} {ls : List Listing}
    {l : Listing} (h : l ∈ (checkCycle seen ls).2) : l ∈ (diffNew seen ls).2 :=
  (List.take_sublist _ _).subset h

theorem checkCycle_seen_subset (seen : List String) (ls : List Listing) :
    seen ⊆ (checkCycle seen ls).1 :=
  diffNew_seen_subset ls seen

theorem cntId_checkCycle_zero {id : String} {seen : List String}
    (ls : List Listing) (h : id ∈ seen) : cntId id (checkCycle seen ls).2 = 0 := by
  apply cntId_eq_zero_of_not_mem
  intro hm
  rcases List.mem_map.1 hm with ⟨l, hl, hid⟩
  exact diffNew_snd_not_seen ls seen l (checkCycle_notified_mem_ls hl) (hid ▸ h)

theorem cntId_checkCycle_le_one (id : String) (seen : List String)
    (ls : List Listing) : cntId id (checkCycle seen ls).2 ≤ 1 :=
  cntId_le_one_of_nodup (checkCycle_notified_ids_nodup seen ls)

theorem cntId_checkCycle_eq_one {id : String} {seen : List String}
    {ls : List Listing} (hm : id ∈ (checkCycle seen ls).2.map (·.id)) :
    cntId id (checkCycle seen ls).2 = 1 :=
  cntId_eq_one_of_nodup (checkCycle_notified_ids_nodup seen ls) hm

theorem mem_fst_of_mem_notified_ids {id : String} {seen : List String}
    {ls : List Listing} (hm : id ∈ (checkCycle seen ls).2.map (·.id)) :
    id ∈ (checkCycle seen ls).1 := by
  rcases List.mem_map.1 hm with ⟨l, hl, hid⟩
  exact hid ▸ diffNew_snd_mem_fst ls seen l (checkCycle_notified_mem_ls hl)

theorem runCycles_seen_subset (fs : List (List Listing)) :
    ∀ seen, seen ⊆ (runCycles seen fs).1 := by
  induction fs with
  | nil => intro seen; simp [runCycles]
  | cons f fs ih =>
      intro seen
      exact List.Subset.trans (checkCycle_seen_subset seen f) (ih _)

theorem countNotifs_runCycles_cons (id : String) (seen : List String)
    (f : List Listing) (fs : List (List Listing)) :
    countNotifs id (runCycles seen (f :: fs)).2 =
      cntId id (checkCycle seen f).2 +
        countNotifs id (runCycles (checkCycle seen f).1 fs).2 := by
  simp [runCycles, countNotifs]

theorem countNotifs_zero_of_mem {id : String} (fs : List (List Listing)) :
    ∀ seen, id ∈ seen → countNotifs id (runCycles seen fs).2 = 0 := by
  induction fs with
  | nil => intro seen _; rfl
  | cons f fs ih =>
      intro seen h
      rw [countNotifs_runCycles_cons, cntId_checkCycle_zero f h,
        ih _ (checkCycle_seen_subset seen f h)]

theorem countNotifs_le_one (id : String) (fs : List (List Listing)) :
    ∀ seen, countNotifs id (runCycles seen fs).2 ≤ 1 := by
  induction fs with
  | nil => intro seen; exact Nat.zero_le 1
  | cons f fs ih =>
      intro seen
      rw [countNotifs_runCycles_cons]
      rcases Nat.eq_zero_or_pos (cntId id (checkCycle seen f).2) with h | h
      · rw [h]; simpa using ih (checkCycle seen f).1
      · have hm := mem_map_of_cntId_pos h
        rw [countNotifs_zero_of_mem fs _ (mem_fst_of_mem_notified_ids hm)]
        simpa using cntId_checkCycle_le_one id seen f

theorem countNotifs_first_cycle {id : String} {seen : List String}
    {f : List Listing} (fs : List (List Listing))
    (hm : id ∈ (checkCycle seen f).2.map (·.id)) :
    countNotifs id (runCycles seen (f :: fs)).2 = 1 := by
  rw [countNotifs_runCycles_cons, cntId_checkCycle_eq_one hm,
    countNotifs_zero_of_mem fs _ (mem_fst_of_mem_notified_ids hm)]

theorem runConfigs_seen_subset (cfgs : List (String × List Listing)) :
    ∀ seen, seen ⊆ (runConfigs seen cfgs).1 := by
  induction cfgs with
  | nil => intro seen; simp [runConfigs]
  | cons c cfgs ih =>
      intro seen
      exact List.Subset.trans (checkCycle_seen_subset seen c.2) (ih _)

theorem foldl_setAdd_subset (xs : List Listing) :
    ∀ seen, seen ⊆ xs.foldl (fun acc l => setAdd acc l.id) seen := by
  induction xs with
  | nil => intro seen; simp
  | cons x xs ih =>
      intro seen
      exact List.Subset.trans (setAdd_subset seen x.id) (ih _)

theorem mem_foldl_setAdd (xs : List Listing) :
    ∀ seen, ∀ l ∈ xs, l.id ∈ xs.foldl (fun acc l => setAdd acc l.id) seen := by
  induction xs with
  | nil => intro seen l hl; cases hl
  | cons x xs ih =>
      intro seen l hl
      rcases List.mem_cons.1 hl with h | h
      · subst h
        exact foldl_setAdd_subset xs (setAdd seen l.id) (mem_setAdd seen l.id)
      · exact ih _ l h

/-! ## Claim C1 — dedup across consecutive cycles -/

/-- C1 counterexample: listing `a6` is returned by the fetch in two
consecutive cycles (it is the sixth new listing of the first cycle),
yet the scheduler produces zero notifications for it — not exactly one
as claimed, because only the first five new listings are notified. -/
theorem dedup_single_notification_cex :
    (∀ f ∈ [sixListings, sixListings], "a6" ∈ f.map (·.id)) ∧
      countNotifs "a6" (runCycles [] [sixListings, sixListings]).2 ≠ 1 := by
  decide

/-- C1 (amended): for every listing id, over any whole run the
scheduler produces at most one notification; an id already in the
Seen-Listing Set is never notified again (so a second consecutive
appearance adds nothing); and the count is exactly one when the id is
among the (at most five) listings notified in the cycle of its first
detection. -/
theorem dedup_at_most_one (seen : List String) (fetches : List (List Listing))
    (id : String) :
    countNotifs id (runCycles seen fetches).2 ≤ 1 ∧
    (id ∈ seen → countNotifs id (runCycles seen fetches).2 = 0) ∧
    (∀ f rest, fetches = f :: rest → id ∈ (checkCycle seen f).2.map (·.id) →
      countNotifs id (runCycles seen fetches).2 = 1) := by
  refine ⟨countNotifs_le_one id fetches seen, countNotifs_zero_of_mem fetches seen, ?_⟩
  intro f rest hf hm
  subst hf
  exact countNotifs_first_cycle rest hm

/-- C1 witness: an already-seen id gets zero notifications; a fresh id
notified in its first cycle gets exactly one. -/
theorem dedup_at_most_one_witness :
    countNotifs "x" (runCycles ["x"] [[mkListing "x"]]).2 = 0 ∧
      countNotifs "y" (runCycles [] [[mkListing "y"]]).2 = 1 :=
  ⟨(dedup_at_most_one ["x"] [[mkListing "x"]] "x").2.1 (by decide),
   (dedup_at_most_one [] [[mkListing "y"]] "y").2.2 [mkListing "y"] [] rfl (by decide)⟩

/-! ## Claim C2 — per-cycle notification cap -/

/-- C2: in one polling cycle the notified listings are exactly the
first 5 newly-detected ones, every fetched id ends up in the seen set,
the seen set grows by exactly the number of new listings, and 8 new
listings yield exactly 5 notifications and 8 newly-seen ids. -/
theorem per_cycle_cap (seen : List String) (ls : List Listing) :
    (checkCycle seen ls).2 = (diffNew seen ls).2.take 5 ∧
    (checkCycle seen ls).2.length = min 5 (diffNew seen ls).2.length ∧
    (∀ l ∈ ls, l.id ∈ (checkCycle seen ls).1) ∧
    (checkCycle seen ls).1.length = seen.length + (diffNew seen ls).2.length ∧
    ((diffNew seen ls).2.length = 8 →
      (checkCycle seen ls).2.length = 5 ∧
      (checkCycle seen ls).1.length = seen.length + 8) := by
  refine ⟨rfl, ?_, fun l hl => diffNew_mem_fst ls seen l hl,
    diffNew_fst_length ls seen, ?_⟩
  · exact List.length_take 5 (diffNew seen ls).2
  · intro h8
    constructor
    · show ((diffNew seen ls).2.take 5).length = 5
      rw [List.length_take, h8]; decide
    · show (diffNew seen ls).1.length = seen.length + 8
      rw [diffNew_fst_length ls seen, h8]

/-- C2 witness: eight fresh listings in one cycle give five
notifications and eight newly-seen ids. -/
theorem per_cycle_cap_witness :
    (checkCycle [] eightListings).2.length = 5 ∧
      (checkCycle [] eightListings).1.length = ([] : List String).length + 8 :=
  (per_cycle_cap [] eightListings).2.2.2.2 (by decide)

/-! ## Claim C6 — fetch client degrades, never raises -/

/-- C6: the fetch client is a total function of the request outcome:
any non-200 status, decode failure or transport exception yields the
empty list, and a 200 response yields the body's `data` array, with a
missing `data` key read as empty. -/
theorem fetch_never_raises :
    (∀ status body, status ≠ 200 → fetchListings (.response status body) = []) ∧
    fetchListings .transportError = [] ∧
    (∀ status, fetchListings (.response status none) = []) ∧
    (∀ b, fetchListings (.response 200 (some b)) = b.data.getD []) ∧
    (∀ l, fetchListings (.response 200 (some ⟨some l⟩)) = l) ∧
    fetchListings (.response 200 (some ⟨none⟩)) = [] := by
  refine ⟨?_, rfl, ?_, fun b => rfl, fun l => rfl, rfl⟩
  · intro status body h
    simp only [fetchListings, if_neg h]
  · intro status
    simp only [fetchListings]
    split <;> rfl

/-- C6 witness: a 500 status with an undecodable body returns the
empty list. -/
theorem fetch_never_raises_witness :
    fetchListings (.response 500 none) = [] :=
  fetch_never_raises.1 500 none (by decide)

/-! ## Claim C9 — monotone growth of the seen set -/

/-- C9: no operation of the program ever removes a listing id from the
Seen-Listing Set: whatever the operation (polling tick, track, untrack,
list, test fetch), the set before is contained in the set after. -/
theorem seen_set_monotone (s : BotState) (op : BotOp) :
    s.seen_listings ⊆ (applyOp s op).seen_listings := by
  cases op with
  | check fetches channelFound =>
      show s.seen_listings ⊆ (checkListingsState s fetches channelFound).1.seen_listings
      unfold checkListingsState
      split
      · exact List.Subset.refl _
      · split
        · exact List.Subset.refl _
        · exact runConfigs_seen_subset _ s.seen_listings
  | track ch name d p params fetch =>
      show s.seen_listings ⊆ (trackItems s ch name d p params fetch).1.seen_listings
      unfold trackItems
      cases hp : parseTokens (baseParams d p) (wsTokens params.toList) with
      | error msg => simp
      | ok pd => simpa using foldl_setAdd_subset fetch s.seen_listings
  | untrack name =>
      show s.seen_listings ⊆ (untrackItems s name).1.seen_listings
      unfold untrackItems
      split <;> exact List.Subset.refl _
  | listTr => exact List.Subset.refl _
  | testF d p lim sortBy fetch =>
      show s.seen_listings ⊆ (testFetch s d p lim sortBy fetch).1.seen_listings
      unfold testFetch
      split <;> exact List.Subset.refl _

/-! ## Claim C10 — initial fetch of a new tracking config is marked seen -/

/-- C10: a successful `track` command adds every id returned by its
initial test fetch to the Seen-Listing Set, so none of those listings
is ever notified in any later sequence of polling cycles. -/
theorem track_initial_fetch_seen (s : BotState) (ch : Int) (name : String)
    (d p : Int) (params : String) (initialFetch : List Listing)
    (pd : List (String × PVal))
    (h : (trackItems s ch name d p params initialFetch).2 = .ok pd) :
    ∀ l ∈ initialFetch,
      l.id ∈ (trackItems s ch name d p params initialFetch).1.seen_listings ∧
      ∀ fetches,
        countNotifs l.id
          (runCycles (trackItems s ch name d p params initialFetch).1.seen_listings
            fetches).2 = 0 := by
  intro l hl
  unfold trackItems at h ⊢
  cases hp : parseTokens (baseParams d p) (wsTokens params.toList) with
  | error msg => rw [hp] at h; cases h
  | ok pd' =>
      have hmem : l.id ∈ initialFetch.foldl (fun acc l => setAdd acc l.id)
          s.seen_listings :=
        mem_foldl_setAdd initialFetch s.seen_listings l hl
      exact ⟨hmem, fun fetches => countNotifs_zero_of_mem fetches _ hmem⟩

/-- C10 witness: a listing returned by the initial fetch of a fresh
`track` is seen immediately and gets no notification in a later cycle
returning it again. -/
theorem track_initial_fetch_seen_witness :
    (mkListing "z").id ∈
      (trackItems ⟨[], [], 0⟩ 1 "X" 7 282 "" [mkListing "z"]).1.seen_listings ∧
    countNotifs (mkListing "z").id
      (runCycles (trackItems ⟨[], [], 0⟩ 1 "X" 7 282 "" [mkListing "z"]).1.seen_listings
        [[mkListing "z"]]).2 = 0 := by
  have h := track_initial_fetch_seen ⟨[], [], 0⟩ 1 "X" 7 282 "" [mkListing "z"]
    (baseParams 7 282) (by rfl) (mkListing "z") (List.mem_singleton.2 rfl)
  exact ⟨h.1, h.2 [[mkListing "z"]]⟩

/-! ## Claim C3 — seller display-name fallback chain -/

/-- C3 counterexample: with the `username` key absent and an
obfuscated id present, the builder shows "Anonymous" — not the
truncated obfuscated id the claim requires — because `seller.get`
substitutes the truthy default `'Anonymous'` before the emptiness test. -/
theorem seller_fallback_cex :
    sellerName { username := none, obfuscated_id := some "abcdefgh123" } =
        "Anonymous" ∧
      "Anonymous" ≠ "User " ++ ("abcdefgh123" : String).take 8 ++ "..." :=
  ⟨rfl, by decide⟩

/-- C3 (amended): a present non-empty username is used; with the
username key present but empty and a non-empty obfuscated id, the field
is "User " + first 8 characters + "..."; with the username key absent
the field is "Anonymous" even when an obfuscated id exists; with a
present-but-empty username and no usable obfuscated id the field is the
empty string.  The embed always carries this value in its seller field. -/
theorem seller_fallback_chain (se : Seller) :
    (∀ u, se.username = some u → u ≠ "" → sellerName se = u) ∧
    (se.username = none → sellerName se = "Anonymous") ∧
    (∀ o, se.username = some "" → se.obfuscated_id = some o → o ≠ "" →
      sellerName se = "User " ++ o.take 8 ++ "...") ∧
    (se.username = some "" → se.obfuscated_id.getD "" = "" → sellerName se = "") ∧
    (∀ l : Listing, ("👤 Seller", sellerName l.seller) ∈ (createListingEmbed l).fields) := by
  refine ⟨?_, ?_, ?_, ?_, ?_⟩
  · intro u hu hne
    simp [sellerName, hu, hne]
  · intro hu
    simp [sellerName, hu]
  · intro o hu ho hne
    simp [sellerName, hu, ho, hne]
  · intro hu hobf
    simp [sellerName, hu, hobf]
  · intro l
    simp [createListingEmbed]

/-- C3 witness: present-but-empty username with a long obfuscated id
produces the truncated "User …" form. -/
theorem seller_fallback_chain_witness :
    sellerName { username := some "", obfuscated_id := some "abcdefgh123" } =
      "User " ++ ("abcdefgh123" : String).take 8 ++ "..." :=
  (seller_fallback_chain
      { username := some "", obfuscated_id := some "abcdefgh123" }).2.2.1
    "abcdefgh123" rfl rfl (by decide)

/-! ## Claim C4 — divergence and discount fields -/

/-- C4: for a listing whose reference has `predicted_price > 0` (in
cents), the builder emits the predicted-price field and a divergence
field whose text is the signed one-decimal rendering of
`(displayPrice - predictedPrice) / predictedPrice * 100` — prefixed
with `+` when the price is above prediction, carrying the natural
negative sign below it, and exactly `0.0%` at equality — and emits the
legacy discount field exactly when `base_price > 0` and the display
price is below prediction.  The three concrete instances of the spec
(predicted $100.00 against $90.00 / $110.00 / $100.00) evaluate as
claimed. -/
theorem divergence_fields_correct (price pred base : Nat) (hp : 0 < pred) :
    (refFields price (some ⟨pred, base⟩) =
      [("📈 Predicted", "$" ++ fmtFixed 2 ((pred : Rat) / 100)),
       (if pred < price then
          ("📈 Divergence",
           "+" ++ fmtFixed 1 (divergencePct ((price : Rat) / 100) ((pred : Rat) / 100)) ++ "%")
        else if price < pred then
          ("📉 Divergence",
           fmtFixed 1 (divergencePct ((price : Rat) / 100) ((pred : Rat) / 100)) ++ "%")
        else ("⚖️ Divergence", "0.0%"))] ++
      (if 0 < base ∧ price < pred then
        [("💸 Discount",
          fmtFixed 1 (((pred : Rat) / 100 - (price : Rat) / 100) /
            ((pred : Rat) / 100) * 100) ++ "%")]
      else [])) ∧
    refFields 9000 (some ⟨10000, 10000⟩) =
      [("📈 Predicted", "$100.00"), ("📉 Divergence", "-10.0%"),
       ("💸 Discount", "10.0%")] ∧
    refFields 11000 (some ⟨10000, 10000⟩) =
      [("📈 Predicted", "$100.00"), ("📈 Divergence", "+10.0%")] ∧
    refFields 10000 (some ⟨10000, 10000⟩) =
      [("📈 Predicted", "$100.00"), ("⚖️ Divergence", "0.0%")] := by
  refine ⟨?_,
    by simp only [refFields, divergencePct]; norm_num; all_goals decide,
    by simp only [refFields, divergencePct]; norm_num; all_goals decide,
    by simp only [refFields, divergencePct]; norm_num; all_goals decide⟩
  have h100 : (0 : Rat) < 100 := by norm_num
  have hQ0 : (0 : Rat) < (pred : Rat) / 100 :=
    div_pos (by exact_mod_cast hp) h100
  have hPQiff : (price : Rat) / 100 < (pred : Rat) / 100 ↔ price < pred :=
    (div_lt_div_iff_of_pos_right h100).trans Nat.cast_lt
  have hBiff : (0 : Rat) < (base : Rat) / 100 ↔ 0 < base := by
    rw [div_pos_iff]
    constructor
    · rintro (⟨h1, _⟩ | ⟨_, h2⟩)
      · exact_mod_cast h1
      · exact absurd h2 (by norm_num)
    · intro h1
      exact Or.inl ⟨by exact_mod_cast h1, h100⟩
  simp only [refFields]
  rw [if_pos hQ0, if_congr (and_congr hBiff hPQiff) rfl rfl]
  congr 1
  rcases Nat.lt_trichotomy pred price with hlt | heq | hgt
  · have hQP : (pred : Rat) / 100 < (price : Rat) / 100 :=
      (div_lt_div_iff_of_pos_right h100).2 (by exact_mod_cast hlt)
    have hd : 0 < divergencePct ((price : Rat) / 100) ((pred : Rat) / 100) :=
      mul_pos (div_pos (sub_pos.2 hQP) hQ0) h100
    rw [if_pos hd, if_pos hlt]
  · subst heq
    have hd : divergencePct ((pred : Rat) / 100) ((pred : Rat) / 100) = 0 := by
      unfold divergencePct
      rw [sub_self, zero_div, zero_mul]
    rw [hd]
    simp [lt_irrefl]
  · have hPQ : (price : Rat) / 100 < (pred : Rat) / 100 := hPQiff.2 hgt
    have hd : divergencePct ((price : Rat) / 100) ((pred : Rat) / 100) < 0 :=
      mul_neg_of_neg_of_pos (div_neg_of_neg_of_pos (sub_neg.2 hPQ) hQ0) h100
    rw [if_neg (not_lt.2 hd.le), if_pos hd, if_neg (Nat.lt_asymm hgt),
      if_pos hgt]

/-- C4 witness: the $90.00-against-$100.00 instance of the divergence
and discount claim, at `predicted_price = 10000` cents. -/
theorem divergence_fields_correct_witness :
    refFields 9000 (some ⟨10000, 10000⟩) =
      [("📈 Predicted", "$100.00"), ("📉 Divergence", "-10.0%"),
       ("💸 Discount", "10.0%")] :=
  (divergence_fields_correct 9000 10000 10000 (by decide)).2.1

/-! ## Helper lemmas about tokenization, the parameter dict and `track` -/

theorem wsTokensAux_no_space : ∀ cs : List Char, (∀ c ∈ cs, c ≠ ' ') →
    ∀ cur : List Char, ¬(cur = [] ∧ cs = []) →
      wsTokensAux cur cs = [cur.reverse ++ cs] := by
  intro cs
  induction cs with
  | nil =>
      intro _ cur hne
      have hc : ¬cur.isEmpty := by
        cases cur with
        | nil => exact absurd ⟨rfl, rfl⟩ hne
        | cons a l => simp
      simp [wsTokensAux, hc]
  | cons c cs ih =>
      intro h cur _
      have hc : c ≠ ' ' := h c (List.mem_cons_self _ _)
      simp only [wsTokensAux, if_neg hc]
      rw [ih (fun x hx => h x (List.mem_cons_of_mem _ hx)) (c :: cur) (by simp)]
      simp

theorem wsTokens_single (cs : List Char) (hne : cs ≠ [])
    (hsp : ∀ c ∈ cs, c ≠ ' ') : wsTokens cs = [cs] := by
  unfold wsTokens
  rw [wsTokensAux_no_space cs hsp [] (fun hx => hne hx.2)]
  simp

theorem parseTokens_sortBy_error (acc : List (String × PVal)) (v : String)
    (hv : v ∉ sortOptions) (rest : List (List Char)) :
    parseTokens acc (("sort_by=".toList ++ v.toList) :: rest) =
      .error ("❌ Invalid sort option '" ++ v ++ "'. Valid options: " ++
        String.intercalate ", " sortOptions) := by
  have hmem : '=' ∈ ("sort_by=".toList ++ v.toList) :=
    List.mem_append_left _ (by decide)
  have htake : ("sort_by=".toList ++ v.toList).takeWhile (· ≠ '=') =
      "sort_by".toList := by
    show (('s' :: 'o' :: 'r' :: 't' :: '_' :: 'b' :: 'y' :: '=' :: v.toList)).takeWhile
        (· ≠ '=') = ['s', 'o', 'r', 't', '_', 'b', 'y']
    simp [List.takeWhile_cons]
  have hdrop : ("sort_by=".toList ++ v.toList).dropWhile (· ≠ '=') =
      '=' :: v.toList := by
    show (('s' :: 'o' :: 'r' :: 't' :: '_' :: 'b' :: 'y' :: '=' :: v.toList)).dropWhile
        (· ≠ '=') = '=' :: v.toList
    simp [List.dropWhile_cons]
  simp only [parseTokens, if_pos hmem, htake, hdrop]
  rw [if_pos (show String.mk ("sort_by".toList) = "sort_by" from rfl)]
  rw [if_neg (show ¬(String.mk (List.drop 1 ('=' :: v.toList)) ∈ sortOptions) from hv)]
  rfl

theorem lookup_map_dictInsert {A B : Type} (store : List (String × A))
    (k : String) (v : A) (f : A → B) :
    ((dictInsert store k v).map (fun p => (p.1, f p.2))).lookup k = some (f v) := by
  induction store with
  | nil => simp [dictInsert, List.lookup]
  | cons a store ih =>
      by_cases h : a.1 = k
      · simp [dictInsert, h, List.lookup]
      · simp only [dictInsert, if_neg h, List.map_cons, List.lookup]
        have hba : (k == a.1) = false :=
          beq_eq_false_iff_ne.2 fun he => h he.symm
        rw [hba]
        exact ih

theorem trackItems_of_parse_ok {s : BotState} {ch : Int} {name : String}
    {d p : Int} {params : String} {fetch : List Listing}
    {pd : List (String × PVal)}
    (h : parseTokens (baseParams d p) (wsTokens params.toList) = .ok pd) :
    trackItems s ch name d p params fetch =
      ({ seen_listings := fetch.foldl (fun acc l => setAdd acc l.id) s.seen_listings
         tracking_configs :=
           dictInsert s.tracking_configs name { params := pd, channel := ch }
         channel_id :=
           if (dictInsert s.tracking_configs name
               { params := pd, channel := ch }).length = 1
           then ch else s.channel_id },
       .ok pd) := by
  unfold trackItems
  rw [h]

theorem trackItems_of_parse_error {s : BotState} {ch : Int} {name : String}
    {d p : Int} {params : String} {fetch : List Listing} {msg : String}
    (h : parseTokens (baseParams d p) (wsTokens params.toList) = .error msg) :
    trackItems s ch name d p params fetch = (s, .error msg) := by
  unfold trackItems
  rw [h]

/-! ## Claim C5 — invalid sort option rejected, store untouched -/

/-- C5: a `track` invocation whose extra parameters carry a `sort_by`
value outside the enumerated sort-option set is rejected with the error
message naming the offending value and the valid set, and the bot state
— in particular the Tracking Configuration Store as shown by
`list_tracking` — is unchanged. -/
theorem invalid_sort_rejected (s : BotState) (ch : Int) (name : String)
    (d p : Int) (v : String) (fetch : List Listing)
    (hv : v ∉ sortOptions) (hsp : ∀ c ∈ v.toList, c ≠ ' ') :
    trackItems s ch name d p ("sort_by=" ++ v) fetch =
      (s, .error ("❌ Invalid sort option '" ++ v ++ "'. Valid options: " ++
        String.intercalate ", " sortOptions)) ∧
    listTracking (trackItems s ch name d p ("sort_by=" ++ v) fetch).1 =
      listTracking s := by
  have htl : ("sort_by=" ++ v).toList = "sort_by=".toList ++ v.toList := rfl
  have htok : wsTokens ("sort_by=" ++ v).toList =
      [("sort_by=".toList ++ v.toList)] := by
    rw [htl]
    apply wsTokens_single
    · rw [show "sort_by=".toList = ['s', 'o', 'r', 't', '_', 'b', 'y', '='] from rfl]
      simp
    · intro c hc
      rcases List.mem_append.1 hc with h | h
      · exact (by decide : ∀ c ∈ "sort_by=".toList, c ≠ ' ') c h
      · exact hsp c h
  have hperr : parseTokens (baseParams d p) (wsTokens ("sort_by=" ++ v).toList) =
      .error ("❌ Invalid sort option '" ++ v ++ "'. Valid options: " ++
        String.intercalate ", " sortOptions) := by
    rw [htok]
    exact parseTokens_sortBy_error (baseParams d p) v hv []
  have herr : trackItems s ch name d p ("sort_by=" ++ v) fetch =
      (s, .error ("❌ Invalid sort option '" ++ v ++ "'. Valid options: " ++
        String.intercalate ", " sortOptions)) :=
    trackItems_of_parse_error hperr
  exact ⟨herr, by rw [herr]⟩

/-- C5 witness: `sort_by=bogus` from any channel is rejected and the
store stays empty. -/
theorem invalid_sort_rejected_witness :
    trackItems ⟨[], [], 0⟩ 9 "AK" 7 282 ("sort_by=" ++ "bogus") [] =
      (⟨[], [], 0⟩, .error ("❌ Invalid sort option '" ++ "bogus" ++
        "'. Valid options: " ++ String.intercalate ", " sortOptions)) ∧
    listTracking (trackItems ⟨[], [], 0⟩ 9 "AK" 7 282 ("sort_by=" ++ "bogus") []).1 =
      listTracking ⟨[], [], 0⟩ :=
  invalid_sort_rejected ⟨[], [], 0⟩ 9 "AK" 7 282 "bogus" [] (by decide) (by decide)

/-! ## Claim C7 — configuration round-trip through the store -/

/-- C7: `track("X", 7, 282, "max_float=0.15")` succeeds with the
parameter dict holding `def_index=7`, `paint_index=282`, the defaults
`limit=20` and `sort_by=best_deal`, and `max_float` coerced to the
float `0.15`; `list_tracking` afterwards shows exactly these parameters
for "X", whatever the prior state. -/
theorem track_roundtrip (s : BotState) (ch : Int) (fetch : List Listing) :
    (trackItems s ch "X" 7 282 "max_float=0.15" fetch).2 = .ok roundTripParams ∧
    (listTracking (trackItems s ch "X" 7 282 "max_float=0.15" fetch).1).lookup "X" =
      some roundTripParams := by
  have hp : parseTokens (baseParams 7 282) (wsTokens "max_float=0.15".toList) =
      .ok roundTripParams := by rfl
  rw [trackItems_of_parse_ok hp]
  exact ⟨rfl, lookup_map_dictInsert s.tracking_configs "X"
    { params := roundTripParams, channel := ch } (fun c => c.params)⟩

/-! ## Claim C8 — default destination on first add -/

/-- C8 counterexample: with the store already holding the single
configuration "A" registered while the default destination was channel
1, re-tracking "A" from channel 2 overwrites the sole entry, the store
length stays 1, and the default destination is reassigned to 2 — a
later add that the claim says must leave the destination unchanged. -/
theorem first_add_channel_cex :
    oneConfigState.tracking_configs ≠ [] ∧
    oneConfigState.channel_id = 1 ∧
    (trackItems oneConfigState 2 "A" 7 282 "" []).2 =
      .ok (baseParams 7 282) ∧
    (trackItems oneConfigState 2 "A" 7 282 "" []).1.channel_id = 2 ∧
    (2 : Int) ≠ 1 := by
  refine ⟨by decide, rfl, by rfl, by rfl, by decide⟩

/-- C8 (amended): a successful add updates the default destination to
the adding channel exactly when the store holds exactly one entry after
the insert — so the first add to an empty store sets it, an add that
leaves two or more entries never changes it, but an overwrite of the
sole entry of a one-entry store re-targets it as well. -/
theorem channel_default_rule (s : BotState) (ch : Int) (name : String)
    (d p : Int) (params : String) (fetch : List Listing)
    (pd : List (String × PVal))
    (h : (trackItems s ch name d p params fetch).2 = .ok pd) :
    ((trackItems s ch name d p params fetch).1.tracking_configs.length = 1 →
      (trackItems s ch name d p params fetch).1.channel_id = ch) ∧
    (2 ≤ (trackItems s ch name d p params fetch).1.tracking_configs.length →
      (trackItems s ch name d p params fetch).1.channel_id = s.channel_id) ∧
    (s.tracking_configs = [] →
      (trackItems s ch name d p params fetch).1.channel_id = ch) := by
  cases hp : parseTokens (baseParams d p) (wsTokens params.toList) with
  | error msg =>
      rw [trackItems_of_parse_error hp] at h
      cases h
  | ok pd' =>
      rw [trackItems_of_parse_ok hp]
      refine ⟨?_, ?_, ?_⟩
      · intro h1
        simp only at h1 ⊢
        rw [if_pos h1]
      · intro h2
        simp only at h2 ⊢
        rw [if_neg (by omega)]
      · intro hemp
        simp only [hemp]
        rw [if_pos (show (dictInsert ([] : List (String × TrackingConfig)) name
          { params := pd', channel := ch }).length = 1 from rfl)]

/-- C8 witness: the first add to an empty store sets the default
destination to the adding channel. -/
theorem channel_default_rule_witness :
    (trackItems ⟨[], [], 0⟩ 5 "A" 7 282 "" []).1.channel_id = 5 :=
  (channel_default_rule ⟨[], [], 0⟩ 5 "A" 7 282 "" [] (baseParams 7 282)
    (by rfl)).2.2 rfl

end CSFloat
